import Mathlib

/- Verification of the query-correction engine (src/engine.py) and the GTFS
   ingestion pipeline (src/gtfs_processor.py) of the gtfs-chat repository,
   via a shallow embedding.  External capabilities (the PostgreSQL store,
   pandas CSV parsing, and the language-model providers) are abstracted as
   environment parameters; everything else is translated from the source. -/

namespace GtfsChat

/-- Result of one store execution (`query_to_dict` in src/database.py):
either a list of result rows (possibly empty) or a raised error message.
A row is abstracted as a list of cell representations. -/
inductive ExecOutcome where
  | ok (rows : List (List String))
  | err (msg : String)
deriving DecidableEq, Repr

/-- Errors that can propagate out of the engine: a store-execution error
(a psycopg2 exception from `query_to_dict`) or an exception raised by
`llm_call` (provider/network failure or a ValueError). -/
inductive EngineError where
  | sqlErr (msg : String)
  | llmErr (msg : String)
deriving DecidableEq, Repr

/-- Instrumentation events recording, in order, the external calls made by
`GTFSQueryEngine` while processing a request.  `execEv` is a `query_to_dict`
call, `emptyCorrEv` a successful `correct_empty_results` call inside the
retry loop, `emptyCorrFailEv` such a call raising, `errCorrEv` a successful
`correct_sql_error` call, `errCorrFailEv` such a call raising, and
`suspiciousCorrEv` the `correct_empty_results` call of the one-shot
suspicious-data cycle in `process_query`. -/
inductive Event where
  | execEv (idx : Nat) (query : String) (out : ExecOutcome)
  | emptyCorrEv (query : String) (corrected : String)
  | emptyCorrFailEv (query : String) (msg : String)
  | errCorrEv (query : String) (errMsg : String) (corrected : String)
  | errCorrFailEv (query : String) (errMsg : String) (msg : String)
  | generateEv (query : String)
  | summarizeEv (summary : String)
  | validateEv (verdict : String)
  | suspiciousCorrEv (query : String) (corrected : String)
deriving DecidableEq, Repr

/-- Environment abstracting the externals used by `GTFSQueryEngine`:
`exec` is `query_to_dict`, indexed by the serial number of the store call so
that an arbitrary sequence of outcomes can be modelled; `correctErr` is
`correct_sql_error` (query, error message); `correctEmpty` is
`correct_empty_results`; `generate` is `generate_query`; `summarize` is
`summarize_results` (rows, final query); `validate` is `validate_data`
(summary, rows).  Each LLM-backed call returns `Except`, `.error` modelling
a raised exception. -/
structure EngineEnv where
  exec : Nat → String → ExecOutcome
  correctErr : String → String → Except String String
  correctEmpty : String → Except String String
  generate : Except String String
  summarize : List (List String) → String → Except String String
  validate : String → List (List String) → Except String String

/-- The retry loop of `GTFSQueryEngine.execute_query_with_retries`
(src/engine.py lines 204-221), with `fuel` remaining bounded iterations and
`i` the serial number of the next store call.  In the source the `try`
block covers both the `query_to_dict` call and the `correct_empty_results`
call, so an exception raised by the latter is caught by the same `except`
clause and handed to `correct_sql_error` as the error message; an exception
raised by `correct_sql_error` itself propagates.  When the fuel runs out
one final unguarded `query_to_dict` call is made and its outcome (result
rows or raised error) is returned as is. -/
def retryLoop (env : EngineEnv) :
    Nat → Nat → String → List Event × Except EngineError (List (List String) × String)
  | 0, i, q =>
    match env.exec i q with
    | .ok rows => ([.execEv i q (.ok rows)], .ok (rows, q))
    | .err m => ([.execEv i q (.err m)], .error (.sqlErr m))
  | n + 1, i, q =>
    match env.exec i q with
    | .ok rows =>
      if rows.isEmpty then
        match env.correctEmpty q with
        | .ok q2 =>
          let r := retryLoop env n (i + 1) q2
          (.execEv i q (.ok rows) :: .emptyCorrEv q q2 :: r.1, r.2)
        | .error gm =>
          match env.correctErr q gm with
          | .ok q2 =>
            let r := retryLoop env n (i + 1) q2
            (.execEv i q (.ok rows) :: .emptyCorrFailEv q gm :: .errCorrEv q gm q2 :: r.1,
              r.2)
          | .error gm2 =>
            ([.execEv i q (.ok rows), .emptyCorrFailEv q gm, .errCorrFailEv q gm gm2],
              .error (.llmErr gm2))
      else ([.execEv i q (.ok rows)], .ok (rows, q))
    | .err m =>
      match env.correctErr q m with
      | .ok q2 =>
        let r := retryLoop env n (i + 1) q2
        (.execEv i q (.err m) :: .errCorrEv q m q2 :: r.1, r.2)
      | .error gm =>
        ([.execEv i q (.err m), .errCorrFailEv q m gm], .error (.llmErr gm))

/-- `GTFSQueryEngine.execute_query_with_retries` with its default
`max_retries = 3`, starting from a fresh store-call counter. -/
def execute_query_with_retries (env : EngineEnv) (q : String) :
    List Event × Except EngineError (List (List String) × String) :=
  retryLoop env 3 0 q

/-- The Python `str.startswith` test, evaluated structurally over the
character lists of the two strings. -/
def startswith (s pre : String) : Bool := pre.data.isPrefixOf s.data

/-- `GTFSQueryEngine.process_query` (src/engine.py lines 251-268): generate a
query, run the retry loop, summarize, validate once; if the verdict starts
with "SUSPICIOUS", run exactly one corrective cycle (one
`correct_empty_results` call on the final query, one re-run of the retry
loop, one re-summarization) without re-validating.  The second retry-loop
run numbers its store calls from 4 so that the call serial numbers of the
two runs do not overlap. -/
def process_query (env : EngineEnv) :
    List Event × Except EngineError (String × List (List String) × String) :=
  match env.generate with
  | .error m => ([], .error (.llmErr m))
  | .ok q =>
    let r1 := retryLoop env 3 0 q
    match r1.2 with
    | .error e => (.generateEv q :: r1.1, .error e)
    | .ok (results, finalQ) =>
      match env.summarize results finalQ with
      | .error m => (.generateEv q :: r1.1, .error (.llmErr m))
      | .ok summary =>
        match env.validate summary results with
        | .error m => (.generateEv q :: r1.1 ++ [.summarizeEv summary], .error (.llmErr m))
        | .ok verdict =>
          if startswith verdict "SUSPICIOUS" then
            match env.correctEmpty finalQ with
            | .error m =>
              (.generateEv q :: r1.1 ++ [.summarizeEv summary, .validateEv verdict],
                .error (.llmErr m))
            | .ok cq =>
              let r2 := retryLoop env 3 4 cq
              match r2.2 with
              | .error e =>
                (.generateEv q :: r1.1 ++ [.summarizeEv summary, .validateEv verdict,
                  .suspiciousCorrEv finalQ cq] ++ r2.1, .error e)
              | .ok (results2, finalQ2) =>
                match env.summarize results2 finalQ2 with
                | .error m =>
                  (.generateEv q :: r1.1 ++ [.summarizeEv summary, .validateEv verdict,
                    .suspiciousCorrEv finalQ cq] ++ r2.1, .error (.llmErr m))
                | .ok summary2 =>
                  (.generateEv q :: r1.1 ++ [.summarizeEv summary, .validateEv verdict,
                    .suspiciousCorrEv finalQ cq] ++ r2.1 ++ [.summarizeEv summary2],
                    .ok (summary2, results2, finalQ2))
          else
            (.generateEv q :: r1.1 ++ [.summarizeEv summary, .validateEv verdict],
              .ok (summary, results, finalQ))

/-- Is the event a store execution. -/
def isExecEv : Event → Bool
  | .execEv _ _ _ => true
  | _ => false

/-- Number of store executions recorded in a trace. -/
def execCount (tr : List Event) : Nat := tr.countP isExecEv

/-- Is the event a summarization call. -/
def isSummarizeEv : Event → Bool
  | .summarizeEv _ => true
  | _ => false

/-- Number of summarization calls recorded in a trace. -/
def summarizeCount (tr : List Event) : Nat := tr.countP isSummarizeEv

/-- The verdict of a validator call, if the event is one. -/
def getValidateVerdict : Event → Option String
  | .validateEv v => some v
  | _ => none

/-- Is the event a raised exception of an LLM-backed correction call. -/
def isLlmFailEv : Event → Bool
  | .emptyCorrFailEv _ _ => true
  | .errCorrFailEv _ _ _ => true
  | _ => false

/-- The trace of a retry-loop run always begins with a store execution of the
query it was entered with. -/
lemma retryLoop_head (env : EngineEnv) (n i : Nat) (q : String) :
    ∃ o, ((retryLoop env n i q).1).head? = some (.execEv i q o) := by
  cases n with
  | zero => cases h : env.exec i q <;> simp [retryLoop, h]
  | succ n =>
    cases h : env.exec i q with
    | ok rows =>
      by_cases hr : rows.isEmpty
      · cases hce : env.correctEmpty q with
        | ok q2 => simp [retryLoop, h, hr, hce]
        | error gm =>
          cases hcr : env.correctErr q gm <;> simp [retryLoop, h, hr, hce, hcr]
      · simp [retryLoop, h, hr]
    | err m =>
      cases hcr : env.correctErr q m <;> simp [retryLoop, h, hcr]

/-- The trace of a retry-loop run is never empty. -/
lemma retryLoop_trace_ne_nil (env : EngineEnv) (n i : Nat) (q : String) :
    (retryLoop env n i q).1 ≠ [] := by
  obtain ⟨o, ho⟩ := retryLoop_head env n i q
  intro hnil
  rw [hnil] at ho
  simp at ho

/-- Dropping the head of a list with a nonempty tail keeps the last element. -/
lemma getLast?_cons_of_ne_nil {α : Type} (a : α) {l : List α} (h : l ≠ []) :
    (a :: l).getLast? = l.getLast? := by
  cases l with
  | nil => exact absurd rfl h
  | cons b t => simp [List.getLast?_cons_cons]

/-- A retry-loop run with `n` remaining bounded iterations performs at most
`n + 1` store executions. -/
lemma retryLoop_execCount_le (env : EngineEnv) :
    ∀ n i q, execCount (retryLoop env n i q).1 ≤ n + 1 := by
  intro n
  induction n with
  | zero =>
    intro i q
    cases h : env.exec i q <;> simp [retryLoop, h, execCount, isExecEv]
  | succ n ih =>
    intro i q
    cases h : env.exec i q with
    | ok rows =>
      by_cases hr : rows.isEmpty
      · cases hce : env.correctEmpty q with
        | ok q2 =>
          have hrec := ih (i + 1) q2
          simp [retryLoop, h, hr, hce, execCount, isExecEv, List.countP_cons] at hrec ⊢
          omega
        | error gm =>
          cases hcr : env.correctErr q gm with
          | ok q2 =>
            have hrec := ih (i + 1) q2
            simp [retryLoop, h, hr, hce, hcr, execCount, isExecEv, List.countP_cons]
              at hrec ⊢
            omega
          | error gm2 =>
            simp [retryLoop, h, hr, hce, hcr, execCount, isExecEv, List.countP_cons]
      · simp [retryLoop, h, hr, execCount, isExecEv, List.countP_cons]
    | err m =>
      cases hcr : env.correctErr q m with
      | ok q2 =>
        have hrec := ih (i + 1) q2
        simp [retryLoop, h, hcr, execCount, isExecEv, List.countP_cons] at hrec ⊢
        omega
      | error gm =>
        simp [retryLoop, h, hcr, execCount, isExecEv, List.countP_cons]

/-- If a retry-loop run propagates a store-execution error, then all `n`
bounded iterations plus the final unguarded attempt were executed (exactly
`n + 1` store calls) and the propagated message is the one raised by the
last store execution in the trace. -/
lemma retryLoop_sqlErr (env : EngineEnv) :
    ∀ n i q m, (retryLoop env n i q).2 = .error (.sqlErr m) →
      execCount (retryLoop env n i q).1 = n + 1 ∧
      ∃ j q2, ((retryLoop env n i q).1).getLast? = some (.execEv j q2 (.err m)) := by
  intro n
  induction n with
  | zero =>
    intro i q m hres
    cases h : env.exec i q with
    | ok rows => simp [retryLoop, h] at hres
    | err m2 =>
      simp [retryLoop, h] at hres
      subst hres
      exact ⟨by simp [retryLoop, h, execCount, isExecEv], i, q, by simp [retryLoop, h]⟩
  | succ n ih =>
    intro i q m hres
    cases h : env.exec i q with
    | ok rows =>
      by_cases hr : rows.isEmpty
      · cases hce : env.correctEmpty q with
        | ok q2 =>
          simp only [retryLoop, h, hr, if_true] at hres ⊢
          simp only [hce] at hres ⊢
          obtain ⟨hc, j, q3, hl⟩ := ih (i + 1) q2 m hres
          refine ⟨?_, j, q3, ?_⟩
          · simp [execCount, isExecEv, List.countP_cons] at hc ⊢
            omega
          · rw [getLast?_cons_of_ne_nil, getLast?_cons_of_ne_nil]
            · exact hl
            · exact retryLoop_trace_ne_nil env n (i + 1) q2
            · exact List.cons_ne_nil _ _
        | error gm =>
          cases hcr : env.correctErr q gm with
          | ok q2 =>
            simp only [retryLoop, h, hr, if_true] at hres ⊢
            simp only [hce, hcr] at hres ⊢
            obtain ⟨hc, j, q3, hl⟩ := ih (i + 1) q2 m hres
            refine ⟨?_, j, q3, ?_⟩
            · simp [execCount, isExecEv, List.countP_cons] at hc ⊢
              omega
            · rw [getLast?_cons_of_ne_nil, getLast?_cons_of_ne_nil,
                getLast?_cons_of_ne_nil]
              · exact hl
              · exact retryLoop_trace_ne_nil env n (i + 1) q2
              · exact List.cons_ne_nil _ _
              · exact List.cons_ne_nil _ _
          | error gm2 =>
            simp [retryLoop, h, hr, hce, hcr] at hres
      · simp [retryLoop, h, hr] at hres
    | err m2 =>
      cases hcr : env.correctErr q m2 with
      | ok q2 =>
        simp only [retryLoop, h] at hres ⊢
        simp only [hcr] at hres ⊢
        obtain ⟨hc, j, q3, hl⟩ := ih (i + 1) q2 m hres
        refine ⟨?_, j, q3, ?_⟩
        · simp [execCount, isExecEv, List.countP_cons] at hc ⊢
          omega
        · rw [getLast?_cons_of_ne_nil, getLast?_cons_of_ne_nil]
          · exact hl
          · exact retryLoop_trace_ne_nil env n (i + 1) q2
          · exact List.cons_ne_nil _ _
      | error gm =>
        simp [retryLoop, h, hcr] at hres

/-- Claim C1: for every query and every sequence of outcomes of the
correction loop, `execute_query_with_retries` executes the query against the
store at most `max_retries + 1 = 4` times; and whenever a store error
propagates to the caller it is the error raised by the last store execution
of the run — which is then the fourth, final unguarded one — not a stale one
from an earlier attempt. -/
theorem C1_retry_bound (env : EngineEnv) (q : String) :
    execCount (execute_query_with_retries env q).1 ≤ 4 ∧
    ∀ m, (execute_query_with_retries env q).2 = .error (.sqlErr m) →
      execCount (execute_query_with_retries env q).1 = 4 ∧
      ∃ j q2, ((execute_query_with_retries env q).1).getLast? =
        some (.execEv j q2 (.err m)) := by
  refine ⟨retryLoop_execCount_le env 3 0 q, ?_⟩
  intro m hm
  exact retryLoop_sqlErr env 3 0 q m hm

/-- An environment whose store always raises the same error and whose
language-model calls always succeed. -/
def allFailEnv : EngineEnv where
  exec := fun _ _ => .err "syntax error"
  correctErr := fun _ _ => .ok "SELECT corrected"
  correctEmpty := fun _ => .ok "SELECT corrected"
  generate := .ok "SELECT original"
  summarize := fun _ _ => .ok "summary"
  validate := fun _ _ => .ok "VALID"

/-- Witness for claim C1 at a concrete environment in which every store
execution errors: exactly four executions happen and the propagated error
is the last attempt's. -/
theorem C1_retry_bound_witness :
    execCount (execute_query_with_retries allFailEnv "SELECT original").1 = 4 ∧
    ∃ j q2, ((execute_query_with_retries allFailEnv "SELECT original").1).getLast? =
      some (.execEv j q2 (.err "syntax error")) :=
  (C1_retry_bound allFailEnv "SELECT original").2 "syntax error" (by rfl)

/-- If a retry-loop run propagates an LLM-call error, that error was raised
by a `correct_sql_error` call and it is the last event of the trace:
nothing — no further correction and no further execution — happens after it. -/
lemma retryLoop_llmErr (env : EngineEnv) :
    ∀ n i q m, (retryLoop env n i q).2 = .error (.llmErr m) →
      ∃ q2 em, ((retryLoop env n i q).1).getLast? = some (.errCorrFailEv q2 em m) := by
  intro n
  induction n with
  | zero =>
    intro i q m hres
    cases h : env.exec i q <;> simp [retryLoop, h] at hres
  | succ n ih =>
    intro i q m hres
    cases h : env.exec i q with
    | ok rows =>
      by_cases hr : rows.isEmpty
      · cases hce : env.correctEmpty q with
        | ok q2 =>
          simp only [retryLoop, h, hr, if_true, hce] at hres ⊢
          obtain ⟨q3, em, hl⟩ := ih (i + 1) q2 m hres
          refine ⟨q3, em, ?_⟩
          rw [getLast?_cons_of_ne_nil, getLast?_cons_of_ne_nil]
          · exact hl
          · exact retryLoop_trace_ne_nil env n (i + 1) q2
          · exact List.cons_ne_nil _ _
        | error gm =>
          cases hcr : env.correctErr q gm with
          | ok q2 =>
            simp only [retryLoop, h, hr, if_true, hce, hcr] at hres ⊢
            obtain ⟨q3, em, hl⟩ := ih (i + 1) q2 m hres
            refine ⟨q3, em, ?_⟩
            rw [getLast?_cons_of_ne_nil, getLast?_cons_of_ne_nil,
              getLast?_cons_of_ne_nil]
            · exact hl
            · exact retryLoop_trace_ne_nil env n (i + 1) q2
            · exact List.cons_ne_nil _ _
            · exact List.cons_ne_nil _ _
          | error gm2 =>
            simp [retryLoop, h, hr, hce, hcr] at hres
            subst hres
            exact ⟨q, gm, by simp [retryLoop, h, hr, hce, hcr]⟩
      · simp [retryLoop, h, hr] at hres
    | err m2 =>
      cases hcr : env.correctErr q m2 with
      | ok q2 =>
        simp only [retryLoop, h, hcr] at hres ⊢
        obtain ⟨q3, em, hl⟩ := ih (i + 1) q2 m hres
        refine ⟨q3, em, ?_⟩
        rw [getLast?_cons_of_ne_nil, getLast?_cons_of_ne_nil]
        · exact hl
        · exact retryLoop_trace_ne_nil env n (i + 1) q2
        · exact List.cons_ne_nil _ _
      | error gm =>
        simp [retryLoop, h, hcr] at hres
        subst hres
        exact ⟨q, m2, by simp [retryLoop, h, hcr]⟩

/-- Whenever an empty-result correction call raises inside the retry loop,
the raised message is handed to a `correct_sql_error` call on the same
query: the trace also contains an error-correction event (successful or
itself failing) carrying that message as the execution error. -/
lemma retryLoop_emptyCorrFail_feeds (env : EngineEnv) :
    ∀ n i q q2 gm, Event.emptyCorrFailEv q2 gm ∈ (retryLoop env n i q).1 →
      (∃ cq, Event.errCorrEv q2 gm cq ∈ (retryLoop env n i q).1) ∨
      (∃ m2, Event.errCorrFailEv q2 gm m2 ∈ (retryLoop env n i q).1) := by
  intro n
  induction n with
  | zero =>
    intro i q q2 gm hmem
    cases h : env.exec i q <;> simp [retryLoop, h] at hmem
  | succ n ih =>
    intro i q q2 gm hmem
    cases h : env.exec i q with
    | ok rows =>
      by_cases hr : rows.isEmpty
      · cases hce : env.correctEmpty q with
        | ok q3 =>
          simp only [retryLoop, h, hr, if_true, hce, List.mem_cons] at hmem ⊢
          rcases hmem with h1 | h1 | h1
          · exact absurd h1 (by simp)
          · exact absurd h1 (by simp)
          · rcases ih (i + 1) q3 q2 gm h1 with ⟨cq, hc⟩ | ⟨m2, hc⟩
            · exact Or.inl ⟨cq, Or.inr (Or.inr hc)⟩
            · exact Or.inr ⟨m2, Or.inr (Or.inr hc)⟩
        | error gm0 =>
          cases hcr : env.correctErr q gm0 with
          | ok q3 =>
            simp only [retryLoop, h, hr, if_true, hce, hcr, List.mem_cons] at hmem ⊢
            rcases hmem with h1 | h1 | h1 | h1
            · exact absurd h1 (by simp)
            · rw [Event.emptyCorrFailEv.injEq] at h1
              obtain ⟨rfl, rfl⟩ := h1
              exact Or.inl ⟨q3, Or.inr (Or.inr (Or.inl rfl))⟩
            · exact absurd h1 (by simp)
            · rcases ih (i + 1) q3 q2 gm h1 with ⟨cq, hc⟩ | ⟨m2, hc⟩
              · exact Or.inl ⟨cq, Or.inr (Or.inr (Or.inr hc))⟩
              · exact Or.inr ⟨m2, Or.inr (Or.inr (Or.inr hc))⟩
          | error gm2 =>
            simp only [retryLoop, h, hr, if_true, hce, hcr, List.mem_cons] at hmem ⊢
            rcases hmem with h1 | h1 | h1
            · exact absurd h1 (by simp)
            · rw [Event.emptyCorrFailEv.injEq] at h1
              obtain ⟨rfl, rfl⟩ := h1
              exact Or.inr ⟨gm2, Or.inr (Or.inr (Or.inl rfl))⟩
            · simp at h1
      · simp [retryLoop, h, hr] at hmem
    | err m =>
      cases hcr : env.correctErr q m with
      | ok q3 =>
        simp only [retryLoop, h, hcr, List.mem_cons] at hmem ⊢
        rcases hmem with h1 | h1 | h1
        · exact absurd h1 (by simp)
        · exact absurd h1 (by simp)
        · rcases ih (i + 1) q3 q2 gm h1 with ⟨cq, hc⟩ | ⟨m2, hc⟩
          · exact Or.inl ⟨cq, Or.inr (Or.inr hc)⟩
          · exact Or.inr ⟨m2, Or.inr (Or.inr hc)⟩
      | error gm0 =>
        simp [retryLoop, h, hcr] at hmem

/-- An environment in which the first execution returns zero rows, the
empty-result correction call raises a gateway error, the error-correction
call succeeds, and the corrected query then returns a row. -/
def swallowEnv : EngineEnv where
  exec := fun _ q => if q = "q0" then .ok [] else .ok [["row"]]
  correctErr := fun _ _ => .ok "q1"
  correctEmpty := fun _ => .error "gateway down"
  generate := .ok "q0"
  summarize := fun _ _ => .ok "summary"
  validate := fun _ _ => .ok "VALID"

/-- Counterexample to claim C3 as stated: it is not the case that an error
raised by a language-model call during the correction loop is always
surfaced to the caller.  In `swallowEnv` the empty-result correction call
raises a gateway error, yet the loop catches it, feeds it into an
error-correction cycle, and the run returns successfully. -/
theorem C3_counterexample :
    ¬ (∀ (env : EngineEnv) (q : String),
        (∃ ev ∈ (execute_query_with_retries env q).1, isLlmFailEv ev = true) →
        ∃ m, (execute_query_with_retries env q).2 = .error (.llmErr m)) := by
  intro hclaim
  obtain ⟨m, hm⟩ := hclaim swallowEnv "q0"
    ⟨.emptyCorrFailEv "q0" "gateway down", by decide, rfl⟩
  have hok : (execute_query_with_retries swallowEnv "q0").2 = .ok ([["row"]], "q1") :=
    by rfl
  rw [hok] at hm
  exact Except.noConfusion hm

/-- Claim C3, amended: an exception raised by the SQL-error-correction call
propagates to the caller immediately — the propagated LLM error is the
message of the trace's final event, an error-correction failure, and no
further correction or execution follows — but an exception raised by the
empty-result correction call is caught by that attempt's exception handler
and fed into the SQL-error correction path as if it were a
store-execution failure. -/
theorem C3_gateway_error_handling (env : EngineEnv) (q : String) :
    (∀ m, (execute_query_with_retries env q).2 = .error (.llmErr m) →
      ∃ q2 em, ((execute_query_with_retries env q).1).getLast? =
        some (.errCorrFailEv q2 em m)) ∧
    (∀ q2 gm, Event.emptyCorrFailEv q2 gm ∈ (execute_query_with_retries env q).1 →
      (∃ cq, Event.errCorrEv q2 gm cq ∈ (execute_query_with_retries env q).1) ∨
      (∃ m2, Event.errCorrFailEv q2 gm m2 ∈ (execute_query_with_retries env q).1)) :=
  ⟨fun m hm => retryLoop_llmErr env 3 0 q m hm,
   fun q2 gm hmem => retryLoop_emptyCorrFail_feeds env 3 0 q q2 gm hmem⟩

/-- An environment whose store always errors and whose language-model calls
always raise. -/
def gwFailEnv : EngineEnv where
  exec := fun _ _ => .err "boom"
  correctErr := fun _ _ => .error "rate limited"
  correctEmpty := fun _ => .error "rate limited"
  generate := .ok "q0"
  summarize := fun _ _ => .error "rate limited"
  validate := fun _ _ => .error "rate limited"

/-- Witness for the amended claim C3: in `gwFailEnv` the propagated LLM
error ends the trace, and in `swallowEnv` the swallowed empty-correction
error is fed to the SQL-error corrector. -/
theorem C3_gateway_error_handling_witness :
    (∃ q2 em, ((execute_query_with_retries gwFailEnv "q0").1).getLast? =
      some (.errCorrFailEv q2 em "rate limited")) ∧
    ((∃ cq, Event.errCorrEv "q0" "gateway down" cq ∈
        (execute_query_with_retries swallowEnv "q0").1) ∨
     (∃ m2, Event.errCorrFailEv "q0" "gateway down" m2 ∈
        (execute_query_with_retries swallowEnv "q0").1)) :=
  ⟨(C3_gateway_error_handling gwFailEnv "q0").1 "rate limited" (by rfl),
   (C3_gateway_error_handling swallowEnv "q0").2 "q0" "gateway down" (by decide)⟩

/-- Is the event an issuance of the SQL-error correction prompt (a
`correct_sql_error` call, whether it returned or raised). -/
def isErrCorrCallEv : Event → Bool
  | .errCorrEv _ _ _ => true
  | .errCorrFailEv _ _ _ => true
  | _ => false

/-- Counterexample to claim C7 as stated: it is not the case that after a
first execution returning zero rows, no error-correction prompt is issued
before the next execution.  In `swallowEnv` the empty-result correction
call raises; the loop catches the exception and issues an error-correction
prompt before executing again. -/
theorem C7_counterexample :
    ¬ (∀ (env : EngineEnv) (q q2 : String) (o : ExecOutcome) (tr1 tr2 : List Event),
        (execute_query_with_retries env q).1 =
          .execEv 0 q (.ok []) :: (tr1 ++ .execEv 1 q2 o :: tr2) →
        tr1.countP isErrCorrCallEv = 0) := by
  intro hclaim
  have h := hclaim swallowEnv "q0" "q1" (.ok [["row"]])
    [.emptyCorrFailEv "q0" "gateway down", .errCorrEv "q0" "gateway down" "q1"] []
    (by decide)
  exact absurd h (by decide)

/-- Claim C7, amended: after a first execution that succeeds but returns
zero rows, provided the empty-result correction call itself returns
normally, exactly one empty-result correction event — and nothing else —
sits between that execution and the next one; and when no retries remain
(the final unguarded attempt) an empty result is returned as is, with no
correction at all. -/
theorem C7_empty_result_correction (env : EngineEnv) (q q2 : String)
    (h0 : env.exec 0 q = .ok [])
    (hc : env.correctEmpty q = .ok q2) :
    (∃ o tr, (execute_query_with_retries env q).1 =
        .execEv 0 q (.ok []) :: .emptyCorrEv q q2 :: tr ∧
        tr.head? = some (.execEv 1 q2 o)) ∧
    (∀ i q3, env.exec i q3 = .ok [] →
      retryLoop env 0 i q3 = ([.execEv i q3 (.ok [])], .ok ([], q3))) := by
  constructor
  · obtain ⟨o, ho⟩ := retryLoop_head env 2 1 q2
    refine ⟨o, (retryLoop env 2 1 q2).1, ?_, ho⟩
    simp [execute_query_with_retries, retryLoop, h0, hc]
  · intro i q3 h3
    simp [retryLoop, h3]

/-- Witness for the amended claim C7 at `swallowEnv` patched to a total
empty-result corrector: an environment where the first execution is empty
and the correction call succeeds. -/
def emptyThenRowEnv : EngineEnv where
  exec := fun _ q => if q = "q0" then .ok [] else .ok [["row"]]
  correctErr := fun _ _ => .ok "q1"
  correctEmpty := fun _ => .ok "q1"
  generate := .ok "q0"
  summarize := fun _ _ => .ok "summary"
  validate := fun _ _ => .ok "VALID"

/-- Witness for the amended claim C7 at the concrete environment
`emptyThenRowEnv`. -/
theorem C7_empty_result_correction_witness :
    (∃ o tr, (execute_query_with_retries emptyThenRowEnv "q0").1 =
        .execEv 0 "q0" (.ok []) :: .emptyCorrEv "q0" "q1" :: tr ∧
        tr.head? = some (.execEv 1 "q1" o)) ∧
    (∀ i q3, emptyThenRowEnv.exec i q3 = .ok [] →
      retryLoop emptyThenRowEnv 0 i q3 = ([.execEv i q3 (.ok [])], .ok ([], q3))) :=
  C7_empty_result_correction emptyThenRowEnv "q0" "q1" (by decide) rfl

/-- Every event of a retry-loop trace is a loop event: in particular no
summarization and no validation call ever happens inside the loop. -/
lemma retryLoop_trace_loop_events (env : EngineEnv) :
    ∀ n i q ev, ev ∈ (retryLoop env n i q).1 →
      isSummarizeEv ev = false ∧ getValidateVerdict ev = none := by
  intro n
  induction n with
  | zero =>
    intro i q ev hmem
    cases h : env.exec i q <;>
      (simp [retryLoop, h] at hmem; subst hmem; exact ⟨rfl, rfl⟩)
  | succ n ih =>
    intro i q ev hmem
    cases h : env.exec i q with
    | ok rows =>
      by_cases hr : rows.isEmpty
      · cases hce : env.correctEmpty q with
        | ok q2 =>
          simp only [retryLoop, h, hr, if_true, hce, List.mem_cons] at hmem
          rcases hmem with rfl | rfl | h1
          · exact ⟨rfl, rfl⟩
          · exact ⟨rfl, rfl⟩
          · exact ih (i + 1) q2 ev h1
        | error gm =>
          cases hcr : env.correctErr q gm with
          | ok q2 =>
            simp only [retryLoop, h, hr, if_true, hce, hcr, List.mem_cons] at hmem
            rcases hmem with rfl | rfl | rfl | h1
            · exact ⟨rfl, rfl⟩
            · exact ⟨rfl, rfl⟩
            · exact ⟨rfl, rfl⟩
            · exact ih (i + 1) q2 ev h1
          | error gm2 =>
            simp only [retryLoop, h, hr, if_true, hce, hcr, List.mem_cons] at hmem
            rcases hmem with rfl | rfl | rfl | h1
            · exact ⟨rfl, rfl⟩
            · exact ⟨rfl, rfl⟩
            · exact ⟨rfl, rfl⟩
            · simp at h1
      · simp [retryLoop, h, hr] at hmem
        subst hmem
        exact ⟨rfl, rfl⟩
    | err m =>
      cases hcr : env.correctErr q m with
      | ok q2 =>
        simp only [retryLoop, h, hcr, List.mem_cons] at hmem
        rcases hmem with rfl | rfl | h1
        · exact ⟨rfl, rfl⟩
        · exact ⟨rfl, rfl⟩
        · exact ih (i + 1) q2 ev h1
      | error gm =>
        simp only [retryLoop, h, hcr, List.mem_cons] at hmem
        rcases hmem with rfl | rfl | h1
        · exact ⟨rfl, rfl⟩
        · exact ⟨rfl, rfl⟩
        · simp at h1

/-- A retry-loop trace contains no summarization call. -/
lemma retryLoop_no_summarize (env : EngineEnv) (n i : Nat) (q : String) :
    ((retryLoop env n i q).1).countP isSummarizeEv = 0 :=
  List.countP_eq_zero.mpr fun ev hm => by
    simp [(retryLoop_trace_loop_events env n i q ev hm).1]

/-- A retry-loop trace contains no validation call. -/
lemma retryLoop_no_validate (env : EngineEnv) (n i : Nat) (q : String) :
    ((retryLoop env n i q).1).filterMap getValidateVerdict = [] :=
  List.filterMap_eq_nil_iff.mpr fun ev hm =>
    (retryLoop_trace_loop_events env n i q ev hm).2

/-- Claim C2: in every request that completes successfully, the validator is
invoked exactly once, with some verdict `v`; if and only if `v` starts with
the literal prefix "SUSPICIOUS" — any other text counts as valid — the
engine performs exactly one corrective cycle: right after the validation it
issues one empty-result-style correction of the final query, re-runs the
execute/correct retry sub-loop once, and re-summarizes once (two
summarizations in total instead of one), and it never validates again. -/
theorem C2_one_shot_validation (env : EngineEnv)
    (out : String × List (List String) × String)
    (h : (process_query env).2 = .ok out) :
    ∃ v, ((process_query env).1).filterMap getValidateVerdict = [v] ∧
      (if startswith v "SUSPICIOUS" then
        summarizeCount (process_query env).1 = 2 ∧
        ∃ pre q1 cq s2, (process_query env).1 =
          pre ++ [.validateEv v, .suspiciousCorrEv q1 cq] ++
            (retryLoop env 3 4 cq).1 ++ [.summarizeEv s2]
      else
        summarizeCount (process_query env).1 = 1 ∧
        ∃ pre s1, (process_query env).1 = pre ++ [.summarizeEv s1, .validateEv v]) := by
  cases hg : env.generate with
  | error m => simp [process_query, hg] at h
  | ok q =>
    cases hr1 : (retryLoop env 3 0 q).2 with
    | error e => simp [process_query, hg, hr1] at h
    | ok p1 =>
      obtain ⟨results, finalQ⟩ := p1
      cases hs : env.summarize results finalQ with
      | error m => simp [process_query, hg, hr1, hs] at h
      | ok summary =>
        cases hv : env.validate summary results with
        | error m => simp [process_query, hg, hr1, hs, hv] at h
        | ok verdict =>
          by_cases hsus : startswith verdict "SUSPICIOUS"
          · cases hce : env.correctEmpty finalQ with
            | error m => simp [process_query, hg, hr1, hs, hv, hsus, hce] at h
            | ok cq =>
              cases hr2 : (retryLoop env 3 4 cq).2 with
              | error e => simp [process_query, hg, hr1, hs, hv, hsus, hce, hr2] at h
              | ok p2 =>
                obtain ⟨results2, finalQ2⟩ := p2
                cases hs2 : env.summarize results2 finalQ2 with
                | error m =>
                  simp [process_query, hg, hr1, hs, hv, hsus, hce, hr2, hs2] at h
                | ok summary2 =>
                  refine ⟨verdict, ?_, ?_⟩
                  · simp [process_query, hg, hr1, hs, hv, hsus, hce, hr2, hs2,
                      List.filterMap_append, retryLoop_no_validate, getValidateVerdict]
                  · rw [if_pos hsus]
                    constructor
                    · simp [process_query, hg, hr1, hs, hv, hsus, hce, hr2, hs2,
                        summarizeCount, List.countP_append, List.countP_cons,
                        retryLoop_no_summarize, isSummarizeEv]
                    · refine ⟨.generateEv q :: (retryLoop env 3 0 q).1 ++
                        [.summarizeEv summary], finalQ, cq, summary2, ?_⟩
                      simp [process_query, hg, hr1, hs, hv, hsus, hce, hr2, hs2]
          · refine ⟨verdict, ?_, ?_⟩
            · simp [process_query, hg, hr1, hs, hv, hsus,
                List.filterMap_append, retryLoop_no_validate, getValidateVerdict]
            · rw [if_neg hsus]
              constructor
              · simp [process_query, hg, hr1, hs, hv, hsus, summarizeCount,
                  List.countP_append, List.countP_cons,
                  retryLoop_no_summarize, isSummarizeEv]
              · exact ⟨.generateEv q :: (retryLoop env 3 0 q).1, summary,
                  by simp [process_query, hg, hr1, hs, hv, hsus]⟩

/-- An element selected by `getLast?` is a member of the list. -/
lemma mem_of_getLast?_eq_some {α : Type} {l : List α} {a : α}
    (h : l.getLast? = some a) : a ∈ l := by
  obtain ⟨hne, heq⟩ := List.mem_getLast?_eq_getLast (l := l) (x := a) h
  rw [heq]
  exact List.getLast_mem hne

/-- The trace is faithful to the environment: an execution event records
exactly the outcome the store produced for that call. -/
lemma retryLoop_exec_faithful (env : EngineEnv) :
    ∀ n i q j q2 o, Event.execEv j q2 o ∈ (retryLoop env n i q).1 →
      env.exec j q2 = o := by
  intro n
  induction n with
  | zero =>
    intro i q j q2 o hmem
    cases h : env.exec i q <;>
      (simp [retryLoop, h] at hmem; obtain ⟨rfl, rfl, rfl⟩ := hmem; exact h)
  | succ n ih =>
    intro i q j q2 o hmem
    cases h : env.exec i q with
    | ok rows =>
      by_cases hr : rows.isEmpty
      · cases hce : env.correctEmpty q with
        | ok q3 =>
          simp only [retryLoop, h, hr, if_true, hce, List.mem_cons] at hmem
          rcases hmem with h1 | h1 | h1
          · rw [Event.execEv.injEq] at h1
            obtain ⟨rfl, rfl, rfl⟩ := h1
            exact h
          · exact absurd h1 (by simp)
          · exact ih (i + 1) q3 j q2 o h1
        | error gm =>
          cases hcr : env.correctErr q gm with
          | ok q3 =>
            simp only [retryLoop, h, hr, if_true, hce, hcr, List.mem_cons] at hmem
            rcases hmem with h1 | h1 | h1 | h1
            · rw [Event.execEv.injEq] at h1
              obtain ⟨rfl, rfl, rfl⟩ := h1
              exact h
            · exact absurd h1 (by simp)
            · exact absurd h1 (by simp)
            · exact ih (i + 1) q3 j q2 o h1
          | error gm2 =>
            simp only [retryLoop, h, hr, if_true, hce, hcr, List.mem_cons] at hmem
            rcases hmem with h1 | h1 | h1 | h1
            · rw [Event.execEv.injEq] at h1
              obtain ⟨rfl, rfl, rfl⟩ := h1
              exact h
            · exact absurd h1 (by simp)
            · exact absurd h1 (by simp)
            · simp at h1
      · simp [retryLoop, h, hr] at hmem
        obtain ⟨rfl, rfl, rfl⟩ := hmem
        exact h
    | err m =>
      cases hcr : env.correctErr q m with
      | ok q3 =>
        simp only [retryLoop, h, hcr, List.mem_cons] at hmem
        rcases hmem with h1 | h1 | h1
        · rw [Event.execEv.injEq] at h1
          obtain ⟨rfl, rfl, rfl⟩ := h1
          exact h
        · exact absurd h1 (by simp)
        · exact ih (i + 1) q3 j q2 o h1
      | error gm =>
        simp only [retryLoop, h, hcr, List.mem_cons] at hmem
        rcases hmem with h1 | h1 | h1
        · rw [Event.execEv.injEq] at h1
          obtain ⟨rfl, rfl, rfl⟩ := h1
          exact h
        · exact absurd h1 (by simp)
        · simp at h1

/-- Counterexample to claim C8 as stated: when the query fails on every
attempt including the final unguarded one, the failure propagated out of
`execute_query_with_retries` — and, `chat` in src/routes.py installing no
exception handler, on to the caller — is the raw backend error alone and
does not include the SQL text: here it contains neither the original query
nor the last corrected query, and two runs with different original queries
propagate the identical error. -/
theorem C8_counterexample :
    (execute_query_with_retries allFailEnv "SELECT a").2 =
      .error (.sqlErr "syntax error") ∧
    (execute_query_with_retries allFailEnv "SELECT b").2 =
      .error (.sqlErr "syntax error") ∧
    ¬ List.IsInfix "SELECT a".data "syntax error".data ∧
    ¬ List.IsInfix "SELECT corrected".data "syntax error".data := by
  refine ⟨rfl, rfl, by decide, by decide⟩

/-- Claim C8, amended: when a chat request's query fails on every attempt
including the final unguarded one, the failure surfaced to the caller is
exactly the raw backend error raised by the final store execution —
`execute_query_with_retries` propagates it unchanged and `chat` installs no
handler — with no query text attached. -/
theorem C8_raw_error_surfaced (env : EngineEnv) (q m : String)
    (h : (execute_query_with_retries env q).2 = .error (.sqlErr m)) :
    ∃ j q2, ((execute_query_with_retries env q).1).getLast? =
      some (.execEv j q2 (.err m)) ∧ env.exec j q2 = .err m := by
  obtain ⟨_, j, q2, hl⟩ := retryLoop_sqlErr env 3 0 q m h
  exact ⟨j, q2, hl,
    retryLoop_exec_faithful env 3 0 q j q2 (.err m) (mem_of_getLast?_eq_some hl)⟩

/-- Witness for the amended claim C8 at the concrete environment
`allFailEnv`. -/
theorem C8_raw_error_surfaced_witness :
    ∃ j q2, ((execute_query_with_retries allFailEnv "SELECT a").1).getLast? =
      some (.execEv j q2 (.err "syntax error")) ∧
      allFailEnv.exec j q2 = .err "syntax error" :=
  C8_raw_error_surfaced allFailEnv "SELECT a" "syntax error" (by rfl)

/-- An environment in which the first summary is flagged as suspicious and
everything else succeeds. -/
def suspiciousEnv : EngineEnv where
  exec := fun _ _ => .ok [["row"]]
  correctErr := fun _ _ => .ok "qc"
  correctEmpty := fun _ => .ok "qc"
  generate := .ok "q0"
  summarize := fun _ _ => .ok "sum"
  validate := fun _ _ => .ok "SUSPICIOUS: too fast for bus"

/-- Witness for claim C2 at the concrete environment `suspiciousEnv`, whose
validator answers with a SUSPICIOUS verdict. -/
theorem C2_one_shot_validation_witness :
    ∃ v, ((process_query suspiciousEnv).1).filterMap getValidateVerdict = [v] ∧
      (if startswith v "SUSPICIOUS" then
        summarizeCount (process_query suspiciousEnv).1 = 2 ∧
        ∃ pre q1 cq s2, (process_query suspiciousEnv).1 =
          pre ++ [.validateEv v, .suspiciousCorrEv q1 cq] ++
            (retryLoop suspiciousEnv 3 4 cq).1 ++ [.summarizeEv s2]
      else
        summarizeCount (process_query suspiciousEnv).1 = 1 ∧
        ∃ pre s1, (process_query suspiciousEnv).1 =
          pre ++ [.summarizeEv s1, .validateEv v]) :=
  C2_one_shot_validation suspiciousEnv ("sum", [["row"]], "qc") (by rfl)

/-- The allow-list `VALID_GTFS_FILES` of src/gtfs_processor.py (lines
10-14).  The Python value is a set literal; it is kept here as a list,
membership being all that is used of it. -/
def VALID_GTFS_FILES : List String :=
  ["agency.txt", "stops.txt", "routes.txt", "trips.txt", "stop_times.txt",
   "calendar.txt", "calendar_dates.txt", "shapes.txt", "frequencies.txt",
   "transfers.txt", "feed_info.txt"]

/-- The pandas dtypes `infer_sql_type` distinguishes. -/
inductive PyDtype where
  | pyInt
  | pyFloat
  | pyStr
  | pyOther
deriving DecidableEq, Repr

/-- `infer_sql_type` (src/gtfs_processor.py lines 157-165): int maps to
INTEGER, float to FLOAT, str to TEXT, anything else defaults to TEXT. -/
def infer_sql_type : PyDtype → String
  | .pyInt => "INTEGER"
  | .pyFloat => "FLOAT"
  | .pyStr => "TEXT"
  | .pyOther => "TEXT"

/-- `filename.split('.')[0]`: the characters before the first dot. -/
def stemOf (filename : String) : String :=
  String.mk (filename.data.takeWhile (fun c => c != '.'))

/-- The GTFS table names: the stems of the allow-listed filenames, as
enumerated by `cleanup_tables` (src/gtfs_processor.py line 203). -/
def gtfsTableNames : List String := VALID_GTFS_FILES.map stemOf

/-- A backing table: column names with their SQL types, the loaded rows
(cells kept as value representations), and whether a GIST index exists
over it. -/
structure GTFSTable where
  cols : List (String × String)
  rows : List (List String)
  hasGistIndex : Bool
deriving DecidableEq, Repr

/-- The relational store: a partial map from table name to table state. -/
def Store : Type := String → Option GTFSTable

/-- Point update of a store. -/
def updateStore (s : Store) (k : String) (v : Option GTFSTable) : Store :=
  fun t => if t = k then v else s t

/-- Environment abstracting the external capabilities of the ingestion
pipeline: `parse` is the pandas-backed `read_gtfs` (table name and file
content to typed columns and rows, or a raised parse error); `load` is the
`copy_from` bulk load (table name, dataframe columns and rows, to unit or
a raised load error); `geomValue` is the PostGIS value
`ST_SetSRID(ST_MakePoint(stop_lon, stop_lat), 4326)` computed for a row of
the stops table. -/
structure IngestEnv where
  parse : String → String →
    Except String (List (String × PyDtype) × List (List String))
  load : String → List (String × PyDtype) → List (List String) →
    Except String Unit
  geomValue : List (String × String) → List String → String

/-- The pure outcome of processing one feed entry against a store in which
the entry's table is absent: the table `process_gtfs_file` creates and
loads, or the error it raises (a parse error is re-raised as is; a load
error is wrapped in the `Error processing <filename>` message of
src/gtfs_processor.py line 198). -/
def fileResult (env : IngestEnv) (g : String × String) : Except String GTFSTable :=
  match env.parse (stemOf g.1) g.2 with
  | .error e => .error e
  | .ok (cols, rows) =>
    match env.load (stemOf g.1) cols rows with
    | .error e => .error ("Error processing " ++ g.1 ++ ": " ++ e)
    | .ok _ => .ok ⟨cols.map (fun c => (c.1, infer_sql_type c.2)), rows, false⟩

/-- `process_gtfs_file` (src/gtfs_processor.py lines 167-200) as a store
transformer: reject filenames outside the allow-list, parse with
`read_gtfs`, run `CREATE TABLE IF NOT EXISTS` with the SQL types inferred
from the parsed dtypes (committed immediately — the connection is in
autocommit mode), then `copy_from` the rows, appending them to whatever
the table held and rolling only the row load back on failure. -/
def process_gtfs_file (env : IngestEnv) (s : Store) (content filename : String) :
    Store × Except String Unit :=
  if filename ∈ VALID_GTFS_FILES then
    match env.parse (stemOf filename) content with
    | .error e => (s, .error e)
    | .ok (cols, rows) =>
      let created : GTFSTable :=
        ⟨cols.map (fun c => (c.1, infer_sql_type c.2)), [], false⟩
      let t0 := (s (stemOf filename)).getD created
      let s1 := updateStore s (stemOf filename) (some t0)
      match env.load (stemOf filename) cols rows with
      | .error e => (s1, .error ("Error processing " ++ filename ++ ": " ++ e))
      | .ok _ =>
        (updateStore s1 (stemOf filename)
          (some ⟨t0.cols, t0.rows ++ rows, t0.hasGistIndex⟩), .ok ())
  else (s, .error ("Invalid GTFS filename: " ++ filename))

/-- `cleanup_tables` (src/gtfs_processor.py lines 202-206): drop every
allow-listed table, `DROP TABLE IF EXISTS ... CASCADE`. -/
def cleanup_tables (s : Store) : Store :=
  fun t => if t ∈ gtfsTableNames then none else s t

/-- The first statement of `add_spatial_index_to_stops`: `ALTER TABLE stops
ADD COLUMN IF NOT EXISTS geometry geometry(Point, 4326)` as a table
transformation — append the column (each existing row getting a NULL cell)
unless a `geometry` column is already present. -/
def withGeometryColumn (t : GTFSTable) : GTFSTable :=
  if t.cols.any (fun c => c.1 == "geometry") then t
  else ⟨t.cols ++ [("geometry", "GEOMETRY(POINT,4326)")],
    t.rows.map (fun r => r ++ ["NULL"]), t.hasGistIndex⟩

/-- The second statement of `add_spatial_index_to_stops`: `UPDATE stops SET
geometry = ST_SetSRID(ST_MakePoint(stop_lon, stop_lat), 4326) WHERE
geometry IS NULL` as a table transformation — every NULL-geometry row gets
the point value computed from it. -/
def setGeometries (env : IngestEnv) (t : GTFSTable) : GTFSTable :=
  ⟨t.cols,
    t.rows.map (fun r =>
      if r.getD (t.cols.findIdx (fun c => c.1 == "geometry")) "" == "NULL"
      then r.set (t.cols.findIdx (fun c => c.1 == "geometry")) (env.geomValue t.cols r)
      else r),
    t.hasGistIndex⟩

/-- `add_spatial_index_to_stops` (src/gtfs_processor.py lines 208-215):
three statements executed in order on the autocommitting connection — add
the `geometry` column if absent, set the geometry of every NULL-geometry
row from the row's `stop_lon` and `stop_lat` values (raising if those
columns do not exist, the column addition remaining committed), and create
the GIST index if absent.  Raises if the `stops` table does not exist. -/
def add_spatial_index_to_stops (env : IngestEnv) (s : Store) :
    Store × Except String Unit :=
  match s "stops" with
  | none => (s, .error "relation stops does not exist")
  | some t =>
    if (withGeometryColumn t).cols.any (fun c => c.1 == "stop_lon") &&
        (withGeometryColumn t).cols.any (fun c => c.1 == "stop_lat") then
      (updateStore (updateStore s "stops" (some (withGeometryColumn t))) "stops"
        (some { setGeometries env (withGeometryColumn t) with hasGistIndex := true }),
        .ok ())
    else (updateStore s "stops" (some (withGeometryColumn t)),
      .error "column stop_lon or stop_lat does not exist")

/-- The feed loop of `process_gtfs_feed` (src/gtfs_processor.py lines
220-222): process each allow-listed feed entry in order, a raised error
aborting the remaining entries. -/
def processFiles (env : IngestEnv) (s : Store) :
    List (String × String) → Store × Except String Unit
  | [] => (s, .ok ())
  | g :: rest =>
    if g.1 ∈ VALID_GTFS_FILES then
      match process_gtfs_file env s g.2 g.1 with
      | (s1, .ok _) => processFiles env s1 rest
      | (s1, .error e) => (s1, .error e)
    else processFiles env s rest

/-- `process_gtfs_feed` (src/gtfs_processor.py lines 217-225): drop all
allow-listed tables, ingest the feed's allow-listed entries in order, then
— only when every entry loaded — add the geometry column and spatial index
whenever `stops.txt` is a key of the feed.  The feed dictionary is kept as
a key-value list in insertion order. -/
def process_gtfs_feed (env : IngestEnv) (feed : List (String × String)) (s : Store) :
    Store × Except String Unit :=
  let s0 := cleanup_tables s
  match processFiles env s0 feed with
  | (s1, .error e) => (s1, .error e)
  | (s1, .ok _) =>
    if feed.any (fun g => g.1 == "stops.txt") then add_spatial_index_to_stops env s1
    else (s1, .ok ())

/-- The allow-listed entries of a feed, in feed order. -/
def validFiles (feed : List (String × String)) : List (String × String) :=
  feed.filter (fun g => decide (g.1 ∈ VALID_GTFS_FILES))

/-- Reading an updated store at the updated key. -/
lemma updateStore_self (s : Store) (k : String) (v : Option GTFSTable) :
    updateStore s k v k = v := by
  simp [updateStore]

/-- Reading an updated store away from the updated key. -/
lemma updateStore_other (s : Store) (k : String) (v : Option GTFSTable)
    (t : String) (h : t ≠ k) : updateStore s k v t = s t := by
  simp [updateStore, h]

/-- Membership of a feed entry in the allow-listed sub-list. -/
lemma mem_validFiles {feed : List (String × String)} {g : String × String} :
    g ∈ validFiles feed ↔ g ∈ feed ∧ g.1 ∈ VALID_GTFS_FILES := by
  simp [validFiles]

/-- The stem of an allow-listed filename is a GTFS table name. -/
lemma stem_mem_gtfsTableNames {a : String} (h : a ∈ VALID_GTFS_FILES) :
    stemOf a ∈ gtfsTableNames :=
  List.mem_map_of_mem stemOf h

/-- Processing one file touches no table other than the file's own. -/
lemma process_gtfs_file_frame (env : IngestEnv) (s : Store)
    (content filename : String) (t : String) (ht : t ≠ stemOf filename) :
    (process_gtfs_file env s content filename).1 t = s t := by
  unfold process_gtfs_file
  by_cases hv : filename ∈ VALID_GTFS_FILES
  · simp only [hv, if_true]
    cases hp : env.parse (stemOf filename) content with
    | error e => rfl
    | ok pr =>
      obtain ⟨cols, rows⟩ := pr
      cases hl : env.load (stemOf filename) cols rows with
      | error e => simp [hl, updateStore, ht]
      | ok u => simp [hl, updateStore, ht]
  · simp [hv]

/-- The feed loop touches no table outside the stems of the feed's
allow-listed entries. -/
lemma processFiles_frame (env : IngestEnv) :
    ∀ (feed : List (String × String)) (s : Store) (t : String),
      (∀ g ∈ validFiles feed, stemOf g.1 ≠ t) →
      (processFiles env s feed).1 t = s t := by
  intro feed
  induction feed with
  | nil => intro s t _; rfl
  | cons g rest ih =>
    intro s t h
    by_cases hv : g.1 ∈ VALID_GTFS_FILES
    · have hg : stemOf g.1 ≠ t := h g (mem_validFiles.mpr ⟨List.mem_cons_self g rest, hv⟩)
      have hrest : ∀ g2 ∈ validFiles rest, stemOf g2.1 ≠ t := fun g2 hm =>
        h g2 (mem_validFiles.mpr
          ⟨List.mem_cons_of_mem g (mem_validFiles.mp hm).1, (mem_validFiles.mp hm).2⟩)
      have hfr : (process_gtfs_file env s g.2 g.1).1 t = s t :=
        process_gtfs_file_frame env s g.2 g.1 t (Ne.symm hg)
      simp only [processFiles, hv, if_true]
      cases hpf : process_gtfs_file env s g.2 g.1 with
      | mk s1 r =>
        rw [hpf] at hfr
        cases r with
        | ok u => rw [ih s1 t hrest]; exact hfr
        | error e => exact hfr
    · have hrest : ∀ g2 ∈ validFiles rest, stemOf g2.1 ≠ t := fun g2 hm =>
        h g2 (mem_validFiles.mpr
          ⟨List.mem_cons_of_mem g (mem_validFiles.mp hm).1, (mem_validFiles.mp hm).2⟩)
      simp only [processFiles, hv, if_false]
      exact ih s t hrest

/-- The geometry augmentation touches only the `stops` table. -/
lemma add_spatial_frame (env : IngestEnv) (s : Store) (t : String)
    (ht : t ≠ "stops") : (add_spatial_index_to_stops env s).1 t = s t := by
  unfold add_spatial_index_to_stops
  cases hs : s "stops" with
  | none => rfl
  | some tb =>
    simp only []
    split <;> simp [updateStore, ht]

/-- A whole feed ingestion touches no table outside the allow-listed GTFS
table names. -/
lemma process_gtfs_feed_frame (env : IngestEnv) (feed : List (String × String))
    (s : Store) (t : String) (ht : t ∉ gtfsTableNames) :
    (process_gtfs_feed env feed s).1 t = s t := by
  have hstems : ∀ g ∈ validFiles feed, stemOf g.1 ≠ t := by
    intro g hm he
    exact ht (he ▸ stem_mem_gtfsTableNames (mem_validFiles.mp hm).2)
  have hclean : cleanup_tables s t = s t := by
    simp [cleanup_tables, ht]
  have hstops : t ≠ "stops" := by
    intro he
    exact ht (he ▸ (by decide : "stops" ∈ gtfsTableNames))
  have hfr : (processFiles env (cleanup_tables s) feed).1 t = s t := by
    rw [processFiles_frame env feed (cleanup_tables s) t hstems, hclean]
  simp only [process_gtfs_feed]
  rcases hpf : processFiles env (cleanup_tables s) feed with ⟨s1, r⟩
  rw [hpf] at hfr
  cases r with
  | error e => exact hfr
  | ok u =>
    simp only []
    split
    · rw [add_spatial_frame env s1 t hstops]
      exact hfr
    · exact hfr

/-- Ingestion depends on the incoming store only through `cleanup_tables`. -/
lemma process_gtfs_feed_congr (env : IngestEnv) (feed : List (String × String))
    (x y : Store) (hxy : cleanup_tables x = cleanup_tables y) :
    process_gtfs_feed env feed x = process_gtfs_feed env feed y := by
  simp only [process_gtfs_feed]
  rw [hxy]

/-- The stem is injective on the allow-list. -/
lemma stemOf_injOn_valid :
    ∀ a ∈ VALID_GTFS_FILES, ∀ b ∈ VALID_GTFS_FILES, stemOf a = stemOf b → a = b := by
  decide

/-- The only allow-listed filename with stem `stops` is `stops.txt`. -/
lemma stem_eq_stops_iff :
    ∀ a ∈ VALID_GTFS_FILES, stemOf a = "stops" → a = "stops.txt" := by
  decide

/-- Distinct feed keys give distinct stems among the allow-listed entries. -/
lemma validFiles_stems_nodup (feed : List (String × String))
    (h : (feed.map Prod.fst).Nodup) :
    ((validFiles feed).map (fun g => stemOf g.1)).Nodup := by
  have hsub : List.Sublist (validFiles feed) feed := List.filter_sublist feed
  have hkeys : ((validFiles feed).map Prod.fst).Nodup :=
    List.Nodup.sublist (hsub.map Prod.fst) h
  have hnd : (validFiles feed).Nodup := List.Nodup.of_map Prod.fst hkeys
  refine List.Nodup.map_on ?_ hnd
  intro x hx y hy hst
  have hx2 := mem_validFiles.mp hx
  have hy2 := mem_validFiles.mp hy
  have hkey : x.1 = y.1 := stemOf_injOn_valid x.1 hx2.2 y.1 hy2.2 hst
  exact List.inj_on_of_nodup_map hkeys hx hy hkey

/-- On a store in which the file's table is absent, a successfully
processed file installs exactly its `fileResult` table. -/
lemma process_gtfs_file_fresh_ok (env : IngestEnv) (s : Store)
    (g : String × String) (t : GTFSTable)
    (hv : g.1 ∈ VALID_GTFS_FILES) (hfresh : s (stemOf g.1) = none)
    (hres : fileResult env g = .ok t) :
    process_gtfs_file env s g.2 g.1 =
      (updateStore s (stemOf g.1) (some t), .ok ()) := by
  cases hp : env.parse (stemOf g.1) g.2 with
  | error e => simp [fileResult, hp] at hres
  | ok pr =>
    obtain ⟨cols, rows⟩ := pr
    cases hl : env.load (stemOf g.1) cols rows with
    | error e => simp [fileResult, hp, hl] at hres
    | ok u =>
      simp only [fileResult, hp, hl, Except.ok.injEq] at hres
      subst hres
      simp only [process_gtfs_file, hv, if_true, hp, hl, hfresh, Option.getD_none]
      rw [Prod.mk.injEq]
      refine ⟨?_, rfl⟩
      funext t2
      by_cases h2 : t2 = stemOf g.1 <;> simp [updateStore, h2]

/-- A failing file raises exactly its `fileResult` error, whatever the
store holds. -/
lemma process_gtfs_file_fresh_err (env : IngestEnv) (s : Store)
    (g : String × String) (e : String)
    (hv : g.1 ∈ VALID_GTFS_FILES)
    (hres : fileResult env g = .error e) :
    (process_gtfs_file env s g.2 g.1).2 = .error e := by
  cases hp : env.parse (stemOf g.1) g.2 with
  | error e2 =>
    simp only [fileResult, hp, Except.error.injEq] at hres
    subst hres
    simp [process_gtfs_file, hv, hp]
  | ok pr =>
    obtain ⟨cols, rows⟩ := pr
    cases hl : env.load (stemOf g.1) cols rows with
    | error e2 =>
      simp only [fileResult, hp, hl, Except.error.injEq] at hres
      subst hres
      simp [process_gtfs_file, hv, hp, hl]
    | ok u => simp [fileResult, hp, hl] at hres

/-- A parse failure leaves the store untouched. -/
lemma process_gtfs_file_parse_fail (env : IngestEnv) (s : Store)
    (g : String × String) (e : String) (hv : g.1 ∈ VALID_GTFS_FILES)
    (hp : env.parse (stemOf g.1) g.2 = .error e) :
    process_gtfs_file env s g.2 g.1 = (s, .error e) := by
  unfold process_gtfs_file
  simp [hv, hp]

/-- A table installed by the loader carries no GIST index. -/
lemma fileResult_ok_hasGist (env : IngestEnv) (g : String × String)
    (t : GTFSTable) (h : fileResult env g = .ok t) : t.hasGistIndex = false := by
  cases hp : env.parse (stemOf g.1) g.2 with
  | error e => simp [fileResult, hp] at h
  | ok pr =>
    obtain ⟨cols, rows⟩ := pr
    cases hl : env.load (stemOf g.1) cols rows with
    | error e => simp [fileResult, hp, hl] at h
    | ok u =>
      simp only [fileResult, hp, hl, Except.ok.injEq] at h
      subst h
      rfl

/-- When the feed loop completes without error on a store in which every
allow-listed entry's table is absent and the entries' stems are distinct,
every allow-listed entry ends up loaded with exactly its `fileResult`
table. -/
lemma processFiles_ok_spec (env : IngestEnv) :
    ∀ (feed : List (String × String)) (s : Store),
      ((validFiles feed).map (fun g => stemOf g.1)).Nodup →
      (∀ g ∈ validFiles feed, s (stemOf g.1) = none) →
      ∀ s2 u, processFiles env s feed = (s2, .ok u) →
      ∀ g ∈ validFiles feed,
        ∃ t, fileResult env g = .ok t ∧ s2 (stemOf g.1) = some t := by
  intro feed
  induction feed with
  | nil =>
    intro s _ _ s2 u _ g hg
    simp [validFiles] at hg
  | cons g0 rest ih =>
    intro s hnd hfresh s2 u hrun g hg
    by_cases hv : g0.1 ∈ VALID_GTFS_FILES
    · have hvf : validFiles (g0 :: rest) = g0 :: validFiles rest := by
        simp [validFiles, hv]
      rw [hvf] at hnd hfresh hg
      rw [List.map_cons] at hnd
      obtain ⟨hne, hndtail⟩ := List.nodup_cons.mp hnd
      cases hres : fileResult env g0 with
      | error e =>
        have h2 := process_gtfs_file_fresh_err env s g0 e hv hres
        simp only [processFiles, hv, if_true] at hrun
        rcases hpf : process_gtfs_file env s g0.2 g0.1 with ⟨sa, ra⟩
        rw [hpf] at hrun h2
        have h3 : ra = .error e := h2
        subst h3
        have hrun2 : (sa, Except.error e) = (s2, Except.ok u) := hrun
        simp at hrun2
      | ok t0 =>
        have h2 := process_gtfs_file_fresh_ok env s g0 t0 hv
          (hfresh g0 (List.mem_cons_self _ _)) hres
        simp only [processFiles, hv, if_true] at hrun
        rw [h2] at hrun
        have hrun2 : processFiles env (updateStore s (stemOf g0.1) (some t0)) rest =
            (s2, Except.ok u) := hrun
        have hfresh2 : ∀ g2 ∈ validFiles rest,
            updateStore s (stemOf g0.1) (some t0) (stemOf g2.1) = none := by
          intro g2 hm
          have hne2 : stemOf g2.1 ≠ stemOf g0.1 := by
            intro he
            exact hne (he ▸ List.mem_map_of_mem (fun g => stemOf g.1) hm)
          rw [updateStore_other _ _ _ _ hne2]
          exact hfresh g2 (List.mem_cons_of_mem _ hm)
        have hstems2 : ∀ g2 ∈ validFiles rest, stemOf g2.1 ≠ stemOf g0.1 := by
          intro g2 hm he
          exact hne (he ▸ List.mem_map_of_mem (fun g => stemOf g.1) hm)
        rcases List.mem_cons.mp hg with rfl | hg2
        · refine ⟨t0, hres, ?_⟩
          have hfr := processFiles_frame env rest
            (updateStore s (stemOf g.1) (some t0)) (stemOf g.1) hstems2
          rw [hrun2] at hfr
          exact hfr.trans (updateStore_self s (stemOf g.1) (some t0))
        · exact ih (updateStore s (stemOf g0.1) (some t0)) hndtail hfresh2 s2 u hrun2
            g hg2
    · have hvf : validFiles (g0 :: rest) = validFiles rest := by
        simp [validFiles, hv]
      rw [hvf] at hnd hfresh hg
      simp only [processFiles, hv, if_false] at hrun
      exact ih s hnd hfresh s2 u hrun g hg

/-- When the feed loop fails on a store in which every allow-listed
entry's table is absent and the entries' stems are distinct, there is a
first failing entry: the entries before it are loaded and committed, the
propagated error is the failing entry's own, and the tables of all
later entries are absent. -/
lemma processFiles_err_spec (env : IngestEnv) :
    ∀ (feed : List (String × String)) (s : Store),
      ((validFiles feed).map (fun g => stemOf g.1)).Nodup →
      (∀ g ∈ validFiles feed, s (stemOf g.1) = none) →
      ∀ s2 e, processFiles env s feed = (s2, .error e) →
      ∃ pre f post, validFiles feed = pre ++ f :: post ∧
        fileResult env f = .error e ∧
        (∀ g ∈ pre, ∃ t, fileResult env g = .ok t ∧ s2 (stemOf g.1) = some t) ∧
        (∀ g ∈ post, s2 (stemOf g.1) = none) := by
  intro feed
  induction feed with
  | nil =>
    intro s _ _ s2 e h
    simp [processFiles] at h
  | cons g0 rest ih =>
    intro s hnd hfresh s2 e hrun
    by_cases hv : g0.1 ∈ VALID_GTFS_FILES
    · have hvf : validFiles (g0 :: rest) = g0 :: validFiles rest := by
        simp [validFiles, hv]
      rw [hvf] at hnd hfresh
      rw [List.map_cons] at hnd
      obtain ⟨hne, hndtail⟩ := List.nodup_cons.mp hnd
      have hstems2 : ∀ g2 ∈ validFiles rest, stemOf g2.1 ≠ stemOf g0.1 := by
        intro g2 hm he
        exact hne (he ▸ List.mem_map_of_mem (fun g => stemOf g.1) hm)
      cases hres : fileResult env g0 with
      | error e0 =>
        have h2 := process_gtfs_file_fresh_err env s g0 e0 hv hres
        simp only [processFiles, hv, if_true] at hrun
        rcases hpf : process_gtfs_file env s g0.2 g0.1 with ⟨sa, ra⟩
        rw [hpf] at hrun h2
        have h3 : ra = .error e0 := h2
        subst h3
        have hrun2 : (sa, Except.error e0) = (s2, Except.error e) := hrun
        rw [Prod.mk.injEq, Except.error.injEq] at hrun2
        obtain ⟨hsa, he0⟩ := hrun2
        subst hsa
        subst he0
        refine ⟨[], g0, validFiles rest, by rw [hvf, List.nil_append], hres,
          by simp, ?_⟩
        intro g2 hm
        have hfr := process_gtfs_file_frame env s g0.2 g0.1 (stemOf g2.1)
          (hstems2 g2 hm)
        rw [hpf] at hfr
        have hfr2 : sa (stemOf g2.1) = s (stemOf g2.1) := hfr
        rw [hfr2]
        exact hfresh g2 (List.mem_cons_of_mem _ hm)
      | ok t0 =>
        have h2 := process_gtfs_file_fresh_ok env s g0 t0 hv
          (hfresh g0 (List.mem_cons_self _ _)) hres
        simp only [processFiles, hv, if_true] at hrun
        rw [h2] at hrun
        have hrun2 : processFiles env (updateStore s (stemOf g0.1) (some t0)) rest =
            (s2, Except.error e) := hrun
        have hfresh2 : ∀ g2 ∈ validFiles rest,
            updateStore s (stemOf g0.1) (some t0) (stemOf g2.1) = none := by
          intro g2 hm
          rw [updateStore_other _ _ _ _ (hstems2 g2 hm)]
          exact hfresh g2 (List.mem_cons_of_mem _ hm)
        obtain ⟨pre, f, post, hdec, hfe, hpre, hpost⟩ :=
          ih (updateStore s (stemOf g0.1) (some t0)) hndtail hfresh2 s2 e hrun2
        refine ⟨g0 :: pre, f, post, by rw [hvf, hdec]; rfl, hfe, ?_, hpost⟩
        intro g2 hm
        rcases List.mem_cons.mp hm with rfl | hm2
        · refine ⟨t0, hres, ?_⟩
          have hfr := processFiles_frame env rest
            (updateStore s (stemOf g2.1) (some t0)) (stemOf g2.1) hstems2
          rw [hrun2] at hfr
          exact hfr.trans (updateStore_self s (stemOf g2.1) (some t0))
        · exact hpre g2 hm2
    · have hvf : validFiles (g0 :: rest) = validFiles rest := by
        simp [validFiles, hv]
      rw [hvf] at hnd hfresh
      simp only [processFiles, hv, if_false] at hrun
      obtain ⟨pre, f, post, hdec, hfe, hpre, hpost⟩ :=
        ih s hnd hfresh s2 e hrun
      exact ⟨pre, f, post, by rw [hvf, hdec], hfe, hpre, hpost⟩

/-- If the first allow-listed entry of the feed fails to parse, the feed
loop fails with that parse error and the store is exactly as the loop
received it. -/
lemma processFiles_first_parse_fail (env : IngestEnv) :
    ∀ (feed : List (String × String)) (s : Store) (g : String × String)
      (rest : List (String × String)) (e : String),
      validFiles feed = g :: rest →
      env.parse (stemOf g.1) g.2 = .error e →
      processFiles env s feed = (s, .error e) := by
  intro feed
  induction feed with
  | nil => intro s g rest e h; simp [validFiles] at h
  | cons g0 tail ih =>
    intro s g rest e hvf hp
    by_cases hv : g0.1 ∈ VALID_GTFS_FILES
    · have hvf2 : validFiles (g0 :: tail) = g0 :: validFiles tail := by
        simp [validFiles, hv]
      rw [hvf2] at hvf
      injection hvf with h1 h2
      subst h1
      simp only [processFiles, hv, if_true]
      rw [process_gtfs_file_parse_fail env s g0 e hv hp]
    · have hvf2 : validFiles (g0 :: tail) = validFiles tail := by
        simp [validFiles, hv]
      rw [hvf2] at hvf
      simp only [processFiles, hv, if_false]
      exact ih s g rest e hvf hp

/-- The column addition guarantees a `geometry` column. -/
lemma withGeometryColumn_any (t : GTFSTable) :
    ((withGeometryColumn t).cols.any (fun c => c.1 == "geometry")) = true := by
  unfold withGeometryColumn
  by_cases hg : (t.cols.any (fun c => c.1 == "geometry")) = true
  · rw [if_pos hg]
    exact hg
  · rw [if_neg hg]
    simp [List.any_append]

/-- When the geometry augmentation succeeds, the stops table ends up with
a `geometry` column and a GIST index. -/
lemma add_spatial_ok (env : IngestEnv) (s s2 : Store) (u : Unit)
    (h : add_spatial_index_to_stops env s = (s2, .ok u)) :
    ∃ t, s2 "stops" = some t ∧
      (t.cols.any (fun c => c.1 == "geometry")) = true ∧ t.hasGistIndex = true := by
  unfold add_spatial_index_to_stops at h
  split at h
  · rw [Prod.mk.injEq] at h
    exact absurd h.2 (by simp)
  · next tb hs =>
    split at h
    · rw [Prod.mk.injEq] at h
      obtain ⟨hs2, _⟩ := h
      subst hs2
      exact ⟨_, updateStore_self _ _ _, withGeometryColumn_any tb, rfl⟩
    · rw [Prod.mk.injEq] at h
      exact absurd h.2 (by simp)

/-- Claim C5: if some allow-listed entry of the feed fails to parse or
load, the ingestion aborts at the first failing entry: the run propagates
that entry's error, the entries before it remain committed in the store
with their loaded tables, and no entry after the failing one is processed
— their tables stay dropped. -/
theorem C5_abort_at_first_failure (env : IngestEnv)
    (feed : List (String × String)) (s : Store)
    (hkeys : (feed.map Prod.fst).Nodup)
    (hfail : ∃ g ∈ validFiles feed, ∃ e2, fileResult env g = .error e2) :
    ∃ e pre f post, (process_gtfs_feed env feed s).2 = .error e ∧
      validFiles feed = pre ++ f :: post ∧
      fileResult env f = .error e ∧
      (∀ g ∈ pre, ∃ t, fileResult env g = .ok t ∧
        (process_gtfs_feed env feed s).1 (stemOf g.1) = some t) ∧
      (∀ g ∈ post, (process_gtfs_feed env feed s).1 (stemOf g.1) = none) := by
  have hnd := validFiles_stems_nodup feed hkeys
  have hfresh : ∀ g ∈ validFiles feed, cleanup_tables s (stemOf g.1) = none := by
    intro g hm
    simp [cleanup_tables, stem_mem_gtfsTableNames (mem_validFiles.mp hm).2]
  rcases hpf : processFiles env (cleanup_tables s) feed with ⟨s1, r⟩
  cases r with
  | ok u =>
    obtain ⟨g, hg, e2, hge⟩ := hfail
    obtain ⟨t, hok, _⟩ := processFiles_ok_spec env feed (cleanup_tables s) hnd
      hfresh s1 u hpf g hg
    rw [hok] at hge
    exact absurd hge (by simp)
  | error e =>
    obtain ⟨pre, f, post, hdec, hfe, hpre, hpost⟩ :=
      processFiles_err_spec env feed (cleanup_tables s) hnd hfresh s1 e hpf
    have hfeed : process_gtfs_feed env feed s = (s1, .error e) := by
      simp only [process_gtfs_feed]
      rw [hpf]
    refine ⟨e, pre, f, post, by rw [hfeed], hdec, hfe, ?_, ?_⟩
    · intro g hm
      obtain ⟨t, h1, h2⟩ := hpre g hm
      refine ⟨t, h1, ?_⟩
      rw [hfeed]
      exact h2
    · intro g hm
      rw [hfeed]
      exact hpost g hm

/-- An ingestion environment in which parsing fails exactly for the
routes table. -/
def routesFailEnv : IngestEnv where
  parse := fun table _ =>
    if table = "routes" then .error "bad csv"
    else .ok ([("col", .pyStr)], [["x"]])
  load := fun _ _ _ => .ok ()
  geomValue := fun _ _ => "POINT(0 0)"

/-- A three-entry feed whose middle entry is the failing routes file. -/
def c5Feed : List (String × String) :=
  [("agency.txt", "a"), ("routes.txt", "r"), ("trips.txt", "t")]

/-- Witness for claim C5 at the concrete environment `routesFailEnv` and
feed `c5Feed`, on an initially empty store. -/
theorem C5_abort_at_first_failure_witness :
    ∃ e pre f post,
      (process_gtfs_feed routesFailEnv c5Feed (fun _ => none)).2 = .error e ∧
      validFiles c5Feed = pre ++ f :: post ∧
      fileResult routesFailEnv f = .error e ∧
      (∀ g ∈ pre, ∃ t, fileResult routesFailEnv g = .ok t ∧
        (process_gtfs_feed routesFailEnv c5Feed (fun _ => none)).1 (stemOf g.1) =
          some t) ∧
      (∀ g ∈ post,
        (process_gtfs_feed routesFailEnv c5Feed (fun _ => none)).1 (stemOf g.1) =
          none) :=
  C5_abort_at_first_failure routesFailEnv c5Feed (fun _ => none) (by decide)
    ⟨("routes.txt", "r"), by decide, "bad csv", by rfl⟩

/-- Claim C6: on a successful ingestion, the stops table carries a
geometry column and a GIST spatial index if and only if stop data
(`stops.txt`) was part of the ingested feed; every other allow-listed
table is exactly its loaded, un-augmented table — in particular it has no
GIST index — and tables outside the allow-list are untouched. -/
theorem C6_geometry_iff_stops (env : IngestEnv) (feed : List (String × String))
    (s : Store)
    (hkeys : (feed.map Prod.fst).Nodup)
    (hrun : (process_gtfs_feed env feed s).2 = .ok ()) :
    ((feed.any (fun g => g.1 == "stops.txt")) = true ↔
      ∃ t, (process_gtfs_feed env feed s).1 "stops" = some t ∧
        (t.cols.any (fun c => c.1 == "geometry")) = true ∧
        t.hasGistIndex = true) ∧
    (∀ g ∈ validFiles feed, stemOf g.1 ≠ "stops" →
      ∃ t, fileResult env g = .ok t ∧
        (process_gtfs_feed env feed s).1 (stemOf g.1) = some t ∧
        t.hasGistIndex = false) ∧
    (∀ t2, t2 ∉ gtfsTableNames → (process_gtfs_feed env feed s).1 t2 = s t2) := by
  have hnd := validFiles_stems_nodup feed hkeys
  have hfresh : ∀ g ∈ validFiles feed, cleanup_tables s (stemOf g.1) = none := by
    intro g hm
    simp [cleanup_tables, stem_mem_gtfsTableNames (mem_validFiles.mp hm).2]
  rcases hpf : processFiles env (cleanup_tables s) feed with ⟨s1, r⟩
  cases r with
  | error e =>
    have hfeed : process_gtfs_feed env feed s = (s1, .error e) := by
      simp only [process_gtfs_feed]
      rw [hpf]
    rw [hfeed] at hrun
    exact absurd hrun (by simp)
  | ok u =>
    by_cases hany : (feed.any (fun g => g.1 == "stops.txt")) = true
    · have hfeed : process_gtfs_feed env feed s = add_spatial_index_to_stops env s1 := by
        simp only [process_gtfs_feed]
        rw [hpf]
        simp [hany]
      rcases hau : add_spatial_index_to_stops env s1 with ⟨s3, r3⟩
      rw [hau] at hfeed
      cases r3 with
      | error e3 =>
        rw [hfeed] at hrun
        exact absurd hrun (by simp)
      | ok u3 =>
        obtain ⟨tg, htg, hgcol, hgist⟩ := add_spatial_ok env s1 s3 u3 hau
        refine ⟨⟨fun _ => ⟨tg, by rw [hfeed]; exact htg, hgcol, hgist⟩,
          fun _ => hany⟩, ?_, ?_⟩
        · intro g hm hne
          obtain ⟨t, hok, hs1⟩ := processFiles_ok_spec env feed (cleanup_tables s)
            hnd hfresh s1 u hpf g hm
          refine ⟨t, hok, ?_, fileResult_ok_hasGist env g t hok⟩
          rw [hfeed]
          have hafr := add_spatial_frame env s1 (stemOf g.1) hne
          rw [hau] at hafr
          exact hafr.trans hs1
        · intro t2 ht2
          exact process_gtfs_feed_frame env feed s t2 ht2
    · have hfeed : process_gtfs_feed env feed s = (s1, .ok u) := by
        simp only [process_gtfs_feed]
        rw [hpf]
        simp [hany]
      have hnostops : ∀ g ∈ validFiles feed, stemOf g.1 ≠ "stops" := by
        intro g hm he
        have hv := (mem_validFiles.mp hm).2
        have hst := stem_eq_stops_iff g.1 hv he
        exact hany (List.any_eq_true.mpr
          ⟨g, (mem_validFiles.mp hm).1, by simp [hst]⟩)
      have hstopnone : (process_gtfs_feed env feed s).1 "stops" = none := by
        rw [hfeed]
        show s1 "stops" = none
        have h3 := processFiles_frame env feed (cleanup_tables s) "stops" hnostops
        rw [hpf] at h3
        have h4 : s1 "stops" = cleanup_tables s "stops" := h3
        rw [h4]
        simp [cleanup_tables, (by decide : "stops" ∈ gtfsTableNames)]
      refine ⟨⟨fun ha => absurd ha hany, fun hex => ?_⟩, ?_, ?_⟩
      · obtain ⟨t, hsome, _⟩ := hex
        rw [hstopnone] at hsome
        exact absurd hsome (by simp)
      · intro g hm hne
        obtain ⟨t, hok, hs1⟩ := processFiles_ok_spec env feed (cleanup_tables s)
          hnd hfresh s1 u hpf g hm
        refine ⟨t, hok, ?_, fileResult_ok_hasGist env g t hok⟩
        rw [hfeed]
        exact hs1
      · intro t2 ht2
        exact process_gtfs_feed_frame env feed s t2 ht2

/-- An ingestion environment whose stops parse yields latitude and
longitude columns and whose parses and loads all succeed. -/
def stopsOkEnv : IngestEnv where
  parse := fun table _ =>
    if table = "stops" then
      .ok ([("stop_id", .pyStr), ("stop_lat", .pyFloat), ("stop_lon", .pyFloat)],
        [["s1", "1.0", "2.0"]])
    else .ok ([("col", .pyStr)], [["x"]])
  load := fun _ _ _ => .ok ()
  geomValue := fun _ _ => "POINT(2 1)"

/-- A feed containing stop data and one other table. -/
def c6Feed : List (String × String) :=
  [("stops.txt", "stops data"), ("routes.txt", "routes data")]

/-- Witness for claim C6 at the concrete environment `stopsOkEnv` and feed
`c6Feed`, on an initially empty store. -/
theorem C6_geometry_iff_stops_witness :
    ((c6Feed.any (fun g => g.1 == "stops.txt")) = true ↔
      ∃ t, (process_gtfs_feed stopsOkEnv c6Feed (fun _ => none)).1 "stops" =
          some t ∧
        (t.cols.any (fun c => c.1 == "geometry")) = true ∧
        t.hasGistIndex = true) ∧
    (∀ g ∈ validFiles c6Feed, stemOf g.1 ≠ "stops" →
      ∃ t, fileResult stopsOkEnv g = .ok t ∧
        (process_gtfs_feed stopsOkEnv c6Feed (fun _ => none)).1 (stemOf g.1) =
          some t ∧
        t.hasGistIndex = false) ∧
    (∀ t2, t2 ∉ gtfsTableNames →
      (process_gtfs_feed stopsOkEnv c6Feed (fun _ => none)).1 t2 =
        (fun _ => none : Store) t2) :=
  C6_geometry_iff_stops stopsOkEnv c6Feed (fun _ => none) (by decide) (by rfl)

/-- Claim C9: every ingestion run drops all allow-listed tables before any
file is parsed: an allow-listed table whose file is not among the feed's
allow-listed entries does not exist afterwards (even when a previous
ingestion created it), and if the very first allow-listed entry of the
feed fails to parse, no GTFS table exists in the store at all. -/
theorem C9_cleanup_before_ingest (env : IngestEnv)
    (feed : List (String × String)) (s : Store) :
    (∀ t, t ∈ gtfsTableNames → (∀ g ∈ validFiles feed, stemOf g.1 ≠ t) →
      (process_gtfs_feed env feed s).1 t = none) ∧
    (∀ g rest e, validFiles feed = g :: rest →
      env.parse (stemOf g.1) g.2 = .error e →
      ∀ t, t ∈ gtfsTableNames → (process_gtfs_feed env feed s).1 t = none) := by
  constructor
  · intro t ht hstems
    rcases hpf : processFiles env (cleanup_tables s) feed with ⟨s1, r⟩
    have h3 := processFiles_frame env feed (cleanup_tables s) t hstems
    rw [hpf] at h3
    have h4 : s1 t = cleanup_tables s t := h3
    have h5 : s1 t = none := by
      rw [h4]
      simp [cleanup_tables, ht]
    cases r with
    | error e =>
      have hfeed : process_gtfs_feed env feed s = (s1, .error e) := by
        simp only [process_gtfs_feed]
        rw [hpf]
      rw [hfeed]
      exact h5
    | ok u =>
      by_cases hany : (feed.any (fun g => g.1 == "stops.txt")) = true
      · have hts : t ≠ "stops" := by
          intro he
          obtain ⟨g, hgm, hgb⟩ := List.any_eq_true.mp hany
          have hgk : g.1 = "stops.txt" := eq_of_beq hgb
          have hgv : g ∈ validFiles feed :=
            mem_validFiles.mpr ⟨hgm, by rw [hgk]; decide⟩
          exact hstems g hgv (by rw [hgk, he]; decide)
        have hfeed : process_gtfs_feed env feed s =
            add_spatial_index_to_stops env s1 := by
          simp only [process_gtfs_feed]
          rw [hpf]
          simp [hany]
        rw [hfeed, add_spatial_frame env s1 t hts]
        exact h5
      · have hfeed : process_gtfs_feed env feed s = (s1, .ok u) := by
          simp only [process_gtfs_feed]
          rw [hpf]
          simp [hany]
        rw [hfeed]
        exact h5
  · intro g rest e hvf hp t ht
    have hrun := processFiles_first_parse_fail env feed (cleanup_tables s) g rest e
      hvf hp
    have hfeed : process_gtfs_feed env feed s = (cleanup_tables s, .error e) := by
      simp only [process_gtfs_feed]
      rw [hrun]
    rw [hfeed]
    show cleanup_tables s t = none
    simp [cleanup_tables, ht]

/-- An ingestion environment in which every parse fails. -/
def allParseFailEnv : IngestEnv where
  parse := fun _ _ => .error "bad header"
  load := fun _ _ _ => .ok ()
  geomValue := fun _ _ => "POINT(0 0)"

/-- A one-entry feed whose only file fails to parse. -/
def c9Feed : List (String × String) := [("agency.txt", "x")]

/-- Witness for claim C9 at the concrete environment `allParseFailEnv` and
feed `c9Feed`: the routes table of a previous ingestion is gone, and after
the first file's parse failure not even the agency table exists. -/
theorem C9_cleanup_before_ingest_witness :
    (process_gtfs_feed allParseFailEnv c9Feed (fun _ => none)).1 "routes" = none ∧
    (process_gtfs_feed allParseFailEnv c9Feed (fun _ => none)).1 "agency" = none :=
  ⟨(C9_cleanup_before_ingest allParseFailEnv c9Feed (fun _ => none)).1 "routes"
      (by decide) (by decide),
   (C9_cleanup_before_ingest allParseFailEnv c9Feed (fun _ => none)).2
      ("agency.txt", "x") [] "bad header" (by decide) (by rfl) "agency" (by decide)⟩

/-- Claim C4: ingesting the same feed twice in succession is idempotent:
the store state after the second ingestion equals the state after the
first — identical set of tables, identical columns and types per table,
identical rows and hence row counts, with nothing appended. -/
theorem C4_reingest_idempotent (env : IngestEnv) (feed : List (String × String))
    (s : Store) :
    (process_gtfs_feed env feed ((process_gtfs_feed env feed s).1)).1 =
      (process_gtfs_feed env feed s).1 := by
  have hclean : cleanup_tables (process_gtfs_feed env feed s).1 = cleanup_tables s := by
    funext t
    by_cases ht : t ∈ gtfsTableNames
    · simp [cleanup_tables, ht]
    · simp [cleanup_tables, ht, process_gtfs_feed_frame env feed s t ht]
  rw [process_gtfs_feed_congr env feed _ s hclean]

/-- The client registry `LLM_CLIENTS` of src/engine.py lines 111-120, kept
as each client's model list; the client objects themselves are external. -/
def LLM_CLIENTS : List (String × List String) :=
  [("anthropic", ["claude-3-5-sonnet-20240620"]),
   ("groq", ["llama-3.1-70b-versatile", "llama-3.1-405b-reasoning"])]

/-- The client and model resolution of `llm_call` (src/engine.py lines
142-150): an unknown client raises a ValueError, a missing model defaults
to the client's first model, and a model outside the client's list raises
a ValueError. -/
def llm_call_resolve (client_name : String) (model : Option String) :
    Except String String :=
  match LLM_CLIENTS.find? (fun c => c.1 == client_name) with
  | none => .error ("Unsupported client: " ++ client_name)
  | some c =>
    match model with
    | none => .ok (c.2.headD "")
    | some m =>
      if m ∈ c.2 then .ok m
      else .error ("Unsupported model for " ++ client_name ++ ": " ++ m)

/-- The default `company_model` of `chat` (src/routes.py line 67). -/
def chat_default_company_model : String := "anthropic - claude-3-sonnet-20240229"

/-- Split a character list at the first occurrence of a separator,
dropping the separator. -/
def splitFirstAux (sep : List Char) : List Char → List Char × List Char
  | [] => ([], [])
  | c :: cs =>
    if sep.isPrefixOf (c :: cs) then ([], (c :: cs).drop sep.length)
    else (c :: (splitFirstAux sep cs).1, (splitFirstAux sep cs).2)

/-- The destructuring `company, model = company_model.split(' - ')` of
`chat` (src/routes.py line 68), for an input containing the separator
exactly once. -/
def chat_split_company_model (s : String) : String × String :=
  (String.mk (splitFirstAux " - ".data s.data).1,
   String.mk (splitFirstAux " - ".data s.data).2)

/-- Claim C10: a chat request omitting `company_model` falls back to the
hard-coded default, which splits into client `anthropic` and model
`claude-3-sonnet-20240229`; that model is not in the anthropic entry of
the client registry, whose only model is `claude-3-5-sonnet-20240620`, so
the very first `llm_call` raises the unsupported-model ValueError; and
when query generation raises, `process_query` propagates the failure with
an empty trace — no SQL was generated and nothing was executed. -/
theorem C10_default_model_unsupported :
    chat_split_company_model chat_default_company_model =
      ("anthropic", "claude-3-sonnet-20240229") ∧
    llm_call_resolve "anthropic" (some "claude-3-sonnet-20240229") =
      .error "Unsupported model for anthropic: claude-3-sonnet-20240229" ∧
    ∀ (env : EngineEnv) (m : String), env.generate = .error m →
      process_query env = ([], .error (.llmErr m)) := by
  refine ⟨by rfl, by rfl, ?_⟩
  intro env m h
  simp [process_query, h]

/-- An environment whose generation call raises the default-model
ValueError. -/
def badModelEnv : EngineEnv where
  exec := fun _ _ => .ok [["row"]]
  correctErr := fun _ _ => .ok "q"
  correctEmpty := fun _ => .ok "q"
  generate := .error "Unsupported model for anthropic: claude-3-sonnet-20240229"
  summarize := fun _ _ => .ok "s"
  validate := fun _ _ => .ok "VALID"

/-- Witness for claim C10 at the concrete environment `badModelEnv`. -/
theorem C10_default_model_unsupported_witness :
    process_query badModelEnv =
      ([], .error (.llmErr
        "Unsupported model for anthropic: claude-3-sonnet-20240229")) :=
  C10_default_model_unsupported.2.2 badModelEnv
    "Unsupported model for anthropic: claude-3-sonnet-20240229" rfl

end GtfsChat
